import Mathlib

/-!
Shallow embedding of the Maschine Mikro MK1 input-report decoder
(`src/devices/ni/MaschineMikroMK1.cpp`).  Bytes are modelled as `Nat`
taken modulo 256 at each read (the C++ buffer stores `uint8_t`), the
device state is an explicit record, and the event callbacks
(`buttonChanged`, `encoderChanged`, `keyChanged`) are modelled as an
output list of events in emission order.  The emitted pad value
`value / 1024.0` is modelled in `ℚ`; every quotient `k / 1024` with
`k < 4096` is exactly representable in a C++ `double`, so the rational
model is exact.
-/

/-- Logical button identities used by the Mikro MK1 bank/bit table
(`sl::cabl::Device::Button` members referenced in the source). -/
inductive Button where
  | Unknown
  | Mute
  | Solo
  | Select
  | Duplicate
  | View
  | PadMode
  | Pattern
  | Scene
  | Enter
  | NavigateRight
  | NavigateLeft
  | Nav
  | Main
  | F3
  | F2
  | F1
  | MainEncoder
  | NoteRepeat
  | Group
  | Sampling
  | Browse
  | Shift
  | Erase
  | Rec
  | Play
  | Grid
  | TransportRight
  | TransportLeft
  | Restart
  deriving DecidableEq

/-- One emitted event: the three callbacks invoked by the decoder.
`keyChanged pad v false` carries the pad value as an exact rational. -/
inductive Event where
  | buttonChanged (button : Button) (pressed : Bool) (shift : Bool)
  | encoderChanged (index : Nat) (increased : Bool) (shift : Bool)
  | keyChanged (index : Nat) (value : ℚ) (shift : Bool)
  deriving DecidableEq

/-- Is this event a button-changed event? -/
def Event.isButton : Event → Bool
  | .buttonChanged _ _ _ => true
  | _ => false

/-- Is this event an encoder-turned event? -/
def Event.isEncoder : Event → Bool
  | .encoderChanged _ _ _ => true
  | _ => false

/-- Is this event a pad (key) value event? -/
def Event.isKey : Event → Bool
  | .keyChanged _ _ _ => true
  | _ => false

/-- Device state: the `m_*` members of `MaschineMikroMK1`.
`buttonsActiveLow` follows the source's encoding: `-1` unknown,
`0` active-high, `1` active-low. -/
structure MikroState where
  padValues : List Nat
  padDown : List Bool
  buttonDown : List Bool
  buttonsActiveLow : Int
  encoderInitialized : Bool
  encoderValue : Nat
  deriving DecidableEq

/-- `kPadThreshold` from the source. -/
def kPadThreshold : Nat := 200

/-- `kNumPads` from the source header. -/
def kNumPads : Nat := 16

/-- `kNumButtonBits` from the source header. -/
def kNumButtonBits : Nat := 32

/-- `kRawPadToLogical`: raw pad index (device report) to logical pad index. -/
def kRawPadToLogical : List Nat := [12, 13, 14, 15, 8, 9, 10, 11, 4, 5, 6, 7, 0, 1, 2, 3]

/-- `kButtonByBankBit`: bank (0..4) and bit (0..7) to logical button. -/
def kButtonByBankBit : List (List Button) :=
  [ [.Unknown, .Unknown, .Unknown, .Unknown, .Unknown, .Unknown, .Unknown, .Unknown],
    [.Mute, .Solo, .Select, .Duplicate, .View, .PadMode, .Pattern, .Scene],
    [.Enter, .NavigateRight, .NavigateLeft, .Nav, .Main, .F3, .F2, .F1],
    [.Unknown, .Unknown, .Unknown, .MainEncoder, .NoteRepeat, .Group, .Sampling, .Browse],
    [.Shift, .Erase, .Rec, .Play, .Grid, .TransportRight, .TransportLeft, .Restart] ]

/-- Read byte `k` of the report; the C++ buffer holds `uint8_t`, so the
value is reduced modulo 256. -/
def byteAt (input : List Nat) (k : Nat) : Nat := input.getD k 0 % 256

/-- `__builtin_popcount` restricted to one byte: the number of set bits
among bit positions 0..7. -/
def popcount8 (n : Nat) : Nat := (List.range 8).countP (fun i => n.testBit i)

/-- The bytes examined by the one-time polarity calibration loop
(`for i in [0, nPayloadBytes-1)`, reading `input_[1+i]`): report bytes
`1 .. length-2`, i.e. every payload byte except the final encoder byte. -/
def calibExamined (input : List Nat) : List Nat :=
  ((input.drop 1).take (input.length - 1 - 1)).map (fun b => b % 256)

/-- `allFF` flag of the calibration loop. -/
def calibAllFF (input : List Nat) : Bool :=
  (calibExamined input).all (fun b => b == 0xFF)

/-- `allZero` flag of the calibration loop. -/
def calibAllZero (input : List Nat) : Bool :=
  (calibExamined input).all (fun b => b == 0x00)

/-- `ones` tally of the calibration loop. -/
def calibOnes (input : List Nat) : Nat :=
  ((calibExamined input).map popcount8).sum

/-- The polarity value stored by the calibration branch:
`1` (active-low) when all examined bytes are `0xFF`; else `0`
(active-high) when all are `0x00`; else the majority heuristic
`ones > totalBits / 2`. -/
def calibPolarity (input : List Nat) : Int :=
  if calibAllFF input then 1
  else if calibAllZero input then 0
  else if ((input.length - 1 - 1) * 8) / 2 < calibOnes input then 1 else 0

/-- The new 32-bit "down" frame built from report bytes 1..4:
`pressed = activeLow > 0 ? !bit : bit`, byte-major, LSB-first. -/
def computeNewDown (input : List Nat) (activeLow : Int) : List Bool :=
  (List.range 32).map (fun idx =>
    let b := byteAt input (1 + idx / 8)
    let bitIsOne := b.testBit (idx % 8)
    if 0 < activeLow then !bitIsOne else bitIsOne)

/-- Look up `kButtonByBankBit[bank][bit]`. -/
def buttonLookup (bank : Nat) (bit : Nat) : Button :=
  (kButtonByBankBit.getD bank []).getD bit .Unknown

/-- The encoder block of `processButtonsReport`: on the first valid
report store the baseline; afterwards, on a changed position, emit one
encoder event with the source's direction formula and store the new
position. -/
def encoderStep (s : MikroState) (current : Nat) (shift : Bool) : MikroState × List Event :=
  if s.encoderInitialized = false then
    ({ s with encoderInitialized := true, encoderValue := current }, [])
  else if current ≠ s.encoderValue then
    let increased := (decide (s.encoderValue < current)
                       || (s.encoderValue == 0x0F && current == 0x00))
                     && !(s.encoderValue == 0x0 && current == 0x0F)
    ({ s with encoderValue := current }, [.encoderChanged 0 increased shift])
  else (s, [])

/-- The button-edge loop of `processButtonsReport`: for each of the 32
bit positions, skip unchanged bits, resolve `bank = 4 - idx/8`,
`bit = idx % 8`, and emit an event unless the table entry is `Unknown`. -/
def buttonEdgeEvents (oldDown newDown : List Bool) (shift : Bool) : List Event :=
  (List.range 32).filterMap (fun idx =>
    if newDown.getD idx false = oldDown.getD idx false then none
    else
      let bank := 4 - idx / 8
      let bit := idx % 8
      let mapping := buttonLookup bank bit
      if mapping ≠ .Unknown then
        some (.buttonChanged mapping (newDown.getD idx false) shift)
      else none)

/-- `processButtonsReport`: guard on payload length, one-time polarity
calibration, new-down frame, shift flag from bit 0 of the new frame,
encoder block, then button edges; finally store the new frame. -/
def processButtonsReport (input : List Nat) (s : MikroState) : MikroState × List Event :=
  if input.length - 1 < 5 then (s, [])
  else
    let s1 := if s.buttonsActiveLow < 0
      then { s with buttonsActiveLow := calibPolarity input } else s
    let newDown := computeNewDown input s1.buttonsActiveLow
    let shiftPressed := newDown.getD 0 false
    let current := byteAt input (1 + (input.length - 1 - 1)) &&& 0x0F
    let es := encoderStep s1 current shiftPressed
    ({ es.1 with buttonDown := newDown },
      es.2 ++ buttonEdgeEvents es.1.buttonDown newDown shiftPressed)

/-- The pair loop of `processPadsLikeMk1Mk2` applied to the bytes from
offset 1 on: consume little-endian pairs `(l, h)`, decode raw pad and
magnitude, skip when `rawPad ≥ kNumPads`, store the magnitude, and
apply the threshold branch. -/
def processPairs (bytes : List Nat) (s : MikroState) : MikroState × List Event :=
  match bytes with
  | l :: h :: rest =>
    let lb := l % 256
    let hb := h % 256
    let rawPad := (hb &&& 0xF0) >>> 4
    if kNumPads ≤ rawPad then processPairs rest s
    else
      let pad := kRawPadToLogical.getD rawPad 0
      let value := ((hb &&& 0x0F) <<< 8) ||| lb
      let s1 := { s with padValues := s.padValues.set pad value }
      if kPadThreshold < value then
        let s2 := { s1 with padDown := s1.padDown.set pad true }
        let r := processPairs rest s2
        (r.1, .keyChanged pad ((value : ℚ) / 1024) false :: r.2)
      else if s1.padDown.getD pad false then
        let s2 := { s1 with padDown := s1.padDown.set pad false }
        let r := processPairs rest s2
        (r.1, .keyChanged pad 0 false :: r.2)
      else processPairs rest s1
  | _ => (s, [])

/-- `processPadsLikeMk1Mk2`: pairs start at byte 1; a dangling final
byte is ignored by the loop condition `(i + 1) < size`. -/
def processPadsLikeMk1Mk2 (input : List Nat) (s : MikroState) : MikroState × List Event :=
  processPairs (input.drop 1) s

/-- `processReport`: the report classifier.  Empty input is a no-op;
6-byte reports tagged `0x01` go to the buttons decoder; reports of
length ≥ 2 tagged `0x20` go to the pad decoder; odd reports of length
≥ 33 also go to the pad decoder; anything else is silently dropped. -/
def processReport (input : List Nat) (s : MikroState) : MikroState × List Event :=
  if input.length = 0 then (s, [])
  else if input.length = 6 ∧ byteAt input 0 = 0x01 then processButtonsReport input s
  else if 2 ≤ input.length ∧ byteAt input 0 = 0x20 then processPadsLikeMk1Mk2 input s
  else if 33 ≤ input.length ∧ input.length % 2 = 1 then processPadsLikeMk1Mk2 input s
  else (s, [])

/-- The freshly initialised device state (`init()`): zero pad values,
empty down sets, polarity unknown (`-1`), encoder uncalibrated. -/
def initState : MikroState :=
  { padValues := List.replicate 16 0
    padDown := List.replicate 16 false
    buttonDown := List.replicate 32 false
    buttonsActiveLow := -1
    encoderInitialized := false
    encoderValue := 0 }

/-- `init()` resets every field of the device state. -/
def init (_ : MikroState) : MikroState := initState

/-- Process a sequence of reports, concatenating the emitted events in
order. -/
def runReports (inputs : List (List Nat)) (s : MikroState) : MikroState × List Event :=
  inputs.foldl (fun acc inp =>
    let r := processReport inp acc.1
    (r.1, acc.2 ++ r.2)) (s, [])

/-! ### Helper lemmas -/

theorem encoderStep_frame (s : MikroState) (c : Nat) (sh : Bool) :
    (encoderStep s c sh).1.padValues = s.padValues ∧
    (encoderStep s c sh).1.padDown = s.padDown ∧
    (encoderStep s c sh).1.buttonDown = s.buttonDown ∧
    (encoderStep s c sh).1.buttonsActiveLow = s.buttonsActiveLow := by
  unfold encoderStep
  split
  · exact ⟨rfl, rfl, rfl, rfl⟩
  · split
    · exact ⟨rfl, rfl, rfl, rfl⟩
    · exact ⟨rfl, rfl, rfl, rfl⟩

theorem processPairs_frame (bytes : List Nat) (s : MikroState) :
    (processPairs bytes s).1.buttonDown = s.buttonDown ∧
    (processPairs bytes s).1.buttonsActiveLow = s.buttonsActiveLow ∧
    (processPairs bytes s).1.encoderInitialized = s.encoderInitialized ∧
    (processPairs bytes s).1.encoderValue = s.encoderValue := by
  match bytes with
  | [] => exact ⟨rfl, rfl, rfl, rfl⟩
  | [b] => exact ⟨rfl, rfl, rfl, rfl⟩
  | l :: h :: rest =>
    have ih := fun s2 => processPairs_frame rest s2
    unfold processPairs
    dsimp only
    split
    · exact ih s
    · split
      · simpa using ih _
      · split
        · simpa using ih _
        · simpa using ih _

theorem processButtons_frame (input : List Nat) (s : MikroState) :
    (processButtonsReport input s).1.padValues = s.padValues ∧
    (processButtonsReport input s).1.padDown = s.padDown := by
  unfold processButtonsReport
  split
  · exact ⟨rfl, rfl⟩
  · by_cases hp : s.buttonsActiveLow < 0 <;>
      simp only [hp, if_true, if_false, reduceIte] <;>
      exact ⟨(encoderStep_frame _ _ _).1, (encoderStep_frame _ _ _).2.1⟩

theorem processButtons_activeLow (input : List Nat) (s : MikroState)
    (h : ¬ s.buttonsActiveLow < 0) :
    (processButtonsReport input s).1.buttonsActiveLow = s.buttonsActiveLow := by
  unfold processButtonsReport
  split
  · rfl
  · simp only [h, reduceIte]
    exact (encoderStep_frame _ _ _).2.2.2

theorem buttonEdgeEvents_all_isButton (oldDown newDown : List Bool) (sh : Bool) :
    ∀ e ∈ buttonEdgeEvents oldDown newDown sh, Event.isButton e = true := by
  intro e he
  unfold buttonEdgeEvents at he
  rcases List.mem_filterMap.mp he with ⟨idx, _, hf⟩
  dsimp only at hf
  split at hf
  · exact Option.noConfusion hf
  · split at hf
    · injection hf with h
      rw [← h]
      rfl
    · exact Option.noConfusion hf

theorem buttonEdgeEvents_filter_isEncoder (oldDown newDown : List Bool) (sh : Bool) :
    (buttonEdgeEvents oldDown newDown sh).filter Event.isEncoder = [] := by
  rw [List.filter_eq_nil_iff]
  intro e he
  have := buttonEdgeEvents_all_isButton oldDown newDown sh e he
  cases e <;> simp_all [Event.isButton, Event.isEncoder]

theorem buttonEdgeEvents_filter_isButton (oldDown newDown : List Bool) (sh : Bool) :
    (buttonEdgeEvents oldDown newDown sh).filter Event.isButton
      = buttonEdgeEvents oldDown newDown sh := by
  rw [List.filter_eq_self]
  exact buttonEdgeEvents_all_isButton oldDown newDown sh

theorem encoderStep_filter_isButton (s : MikroState) (c : Nat) (sh : Bool) :
    (encoderStep s c sh).2.filter Event.isButton = [] := by
  unfold encoderStep
  split
  · rfl
  · split <;> rfl

theorem rawPad_lt_16 (h : Nat) : (h &&& 0xF0) >>> 4 < 16 := by
  have h1 : h &&& 0xF0 ≤ 0xF0 := Nat.and_le_right
  have h2 : (h &&& 0xF0) >>> 4 = (h &&& 0xF0) / 16 := by
    rw [Nat.shiftRight_eq_div_pow]
  omega

theorem logicalPad_lt_16 (r : Nat) : kRawPadToLogical.getD r 0 < 16 := by
  by_cases hr : r < 16
  · have h16 : ∀ i < 16, kRawPadToLogical.getD i 0 < 16 := by decide
    exact h16 r hr
  · have hlen : kRawPadToLogical.length = 16 := rfl
    rw [List.getD_eq_default _ _ (by omega)]
    omega

theorem processPairs_pair (l h : Nat) (rest : List Nat) (s : MikroState)
    (hl : l < 256) (hh : h < 256) :
    processPairs (l :: h :: rest) s =
      (let pad := kRawPadToLogical.getD ((h &&& 0xF0) >>> 4) 0
       let value := ((h &&& 0x0F) <<< 8) ||| l
       let s1 : MikroState := { s with padValues := s.padValues.set pad value }
       if kPadThreshold < value then
         let r := processPairs rest { s1 with padDown := s1.padDown.set pad true }
         (r.1, .keyChanged pad ((value : ℚ) / 1024) false :: r.2)
       else if s1.padDown.getD pad false then
         let r := processPairs rest { s1 with padDown := s1.padDown.set pad false }
         (r.1, .keyChanged pad 0 false :: r.2)
       else processPairs rest s1) := by
  conv_lhs => rw [processPairs]
  dsimp only
  rw [Nat.mod_eq_of_lt hl, Nat.mod_eq_of_lt hh,
    if_neg (by have := rawPad_lt_16 h; simp only [kNumPads]; omega)]

/-- Modelled from the claim's words (C2), for comparison with the
source's `calibAllFF`: an all-`0xFF` check that examines only report
bytes 1..3, excluding byte 4. -/
def calibAllFFPerClaim (input : List Nat) : Bool :=
  ((input.drop 1).take 3).all (fun b => b % 256 == 0xFF)

/-- The concrete magnitude sequence 0, 250, 250, 150, 50 on raw pad 0
(logical pad 12), sent as five `0x20`-tagged pad reports. -/
def padSeqC1 : List (List Nat) :=
  [[0x20, 0, 0], [0x20, 250, 0], [0x20, 250, 0], [0x20, 150, 0], [0x20, 50, 0]]

/-! ### Claim theorems -/

/-- C1 (counterexample): the pad decoder emits a pad-value event for a
magnitude above the threshold even when the pad is already marked down,
so the sequence 0, 250, 250, 150, 50 for one pad emits three events,
not two: the repeated 250 does produce a second event (at index 1). -/
theorem C1_counterexample :
    (runReports padSeqC1 initState).2.length = 3 ∧
    ¬ (runReports padSeqC1 initState).2.length = 2 ∧
    (runReports padSeqC1 initState).2.getD 1 (.keyChanged 0 0 false)
      = .keyChanged 12 (((250 : Nat) : ℚ) / 1024) false :=
  ⟨by decide, by decide, rfl⟩

/-- C1 (amended): when a decoded pair's magnitude is above the
threshold 200, a pad-value-changed event is emitted every time, whether
or not the pad is already marked down, and `padValues` is updated every
time; hence the magnitude sequence 0, 250, 250, 150, 50 for one pad
yields exactly three events: a value event at each sample above 200 and
an up event at the first sample at or below 200 after being down. -/
theorem C1_pad_events_amended :
    (runReports padSeqC1 initState).2 =
      [.keyChanged 12 (((250 : Nat) : ℚ) / 1024) false,
       .keyChanged 12 (((250 : Nat) : ℚ) / 1024) false,
       .keyChanged 12 0 false] ∧
    (runReports padSeqC1 initState).1.padValues.getD 12 0 = 50 ∧
    (∀ l h : Nat, ∀ s : MikroState, l < 256 → h < 256 →
      kPadThreshold < (h &&& 0x0F) <<< 8 ||| l →
      (processPadsLikeMk1Mk2 [0x20, l, h] s).2 =
        [.keyChanged (kRawPadToLogical.getD ((h &&& 0xF0) >>> 4) 0)
          ((((h &&& 0x0F) <<< 8 ||| l : Nat) : ℚ) / 1024) false]) := by
  refine ⟨rfl, by decide, ?_⟩
  intro l h s hl hh hv
  show (processPairs [l, h] s).2 = _
  rw [processPairs_pair l h [] s hl hh]
  dsimp only
  rw [if_pos hv]
  rfl

/-- C1 (witness for the amended theorem): the general clause applied at
magnitude 250 on a state whose pad 12 is already down still emits one
pad-value event. -/
theorem C1_amended_witness :
    (250 : Nat) < 256 ∧ (0 : Nat) < 256 ∧
    kPadThreshold < (0 &&& 0x0F) <<< 8 ||| 250 ∧
    (processPadsLikeMk1Mk2 [0x20, 250, 0]
        { initState with padDown := (List.replicate 16 false).set 12 true }).2 =
      [.keyChanged (kRawPadToLogical.getD ((0 &&& 0xF0) >>> 4) 0)
        ((((0 &&& 0x0F) <<< 8 ||| 250 : Nat) : ℚ) / 1024) false] :=
  ⟨by decide, by decide, by decide,
    C1_pad_events_amended.2.2 250 0
      { initState with padDown := (List.replicate 16 false).set 12 true }
      (by decide) (by decide) (by decide)⟩

/-- C2 (counterexample): on the report 01 FF FF FF 00 05, a check that
examines only report bytes 1..3 (the claim's reading) is true, but the
source's all-`0xFF` check is false, because the source's calibration
loop examines all four bitfield bytes 1..4: its examined-byte list is
[FF, FF, FF, 00], which includes byte 4. -/
theorem C2_counterexample :
    calibAllFFPerClaim [0x01, 0xFF, 0xFF, 0xFF, 0x00, 0x05] = true ∧
    calibAllFF [0x01, 0xFF, 0xFF, 0xFF, 0x00, 0x05] = false ∧
    calibExamined [0x01, 0xFF, 0xFF, 0xFF, 0x00, 0x05] = [0xFF, 0xFF, 0xFF, 0x00] ∧
    calibAllFF [0x01, 0xFF, 0xFF, 0xFF, 0xFF, 0x05] = true := by
  decide

/-- C2 (amended): on a 6-byte buttons report, the all-`0xFF` and
all-`0x00` checks and the set-bit tally of the one-time polarity
calibration all examine the same bytes: the four bitfield bytes 1..4,
excluding only the final encoder byte 5. -/
theorem C2_calibration_range_amended (t b1 b2 b3 b4 b5 : Nat) :
    calibExamined [t, b1, b2, b3, b4, b5] = [b1 % 256, b2 % 256, b3 % 256, b4 % 256] ∧
    calibAllFF [t, b1, b2, b3, b4, b5]
      = [b1 % 256, b2 % 256, b3 % 256, b4 % 256].all (fun b => b == 0xFF) ∧
    calibAllZero [t, b1, b2, b3, b4, b5]
      = [b1 % 256, b2 % 256, b3 % 256, b4 % 256].all (fun b => b == 0x00) ∧
    calibOnes [t, b1, b2, b3, b4, b5]
      = popcount8 (b1 % 256) + (popcount8 (b2 % 256)
          + (popcount8 (b3 % 256) + popcount8 (b4 % 256))) :=
  ⟨rfl, rfl, rfl, rfl⟩

/-- C4: the classifier applies its rules in order with first match
winning: empty input is a no-op; length 6 with tag 0x01 goes to the
buttons decoder; length at least 2 with tag 0x20 goes to the pad
decoder; odd length at least 33 goes to the pad decoder; any other
input produces zero events and no state change. -/
theorem C4_classifier (input : List Nat) (s : MikroState) :
    (input.length = 0 → processReport input s = (s, [])) ∧
    (input.length = 6 → byteAt input 0 = 0x01 →
      processReport input s = processButtonsReport input s) ∧
    (2 ≤ input.length → byteAt input 0 = 0x20 →
      processReport input s = processPadsLikeMk1Mk2 input s) ∧
    (33 ≤ input.length → input.length % 2 = 1 →
      processReport input s = processPadsLikeMk1Mk2 input s) ∧
    (input.length ≠ 0 → ¬(input.length = 6 ∧ byteAt input 0 = 0x01) →
      ¬(2 ≤ input.length ∧ byteAt input 0 = 0x20) →
      ¬(33 ≤ input.length ∧ input.length % 2 = 1) →
      processReport input s = (s, [])) := by
  refine ⟨?_, ?_, ?_, ?_, ?_⟩
  · intro h
    unfold processReport
    rw [if_pos h]
  · intro h6 h01
    unfold processReport
    rw [if_neg (by omega), if_pos ⟨h6, h01⟩]
  · intro hlen hb
    unfold processReport
    rw [if_neg (by omega),
      if_neg (by rintro ⟨-, h1⟩; rw [hb] at h1; norm_num at h1),
      if_pos ⟨hlen, hb⟩]
  · intro h33 hodd
    by_cases hb : byteAt input 0 = 0x20
    · unfold processReport
      rw [if_neg (by omega), if_neg (by rintro ⟨h6, -⟩; omega),
        if_pos ⟨by omega, hb⟩]
    · unfold processReport
      rw [if_neg (by omega), if_neg (by rintro ⟨h6, -⟩; omega),
        if_neg (by rintro ⟨-, h⟩; exact hb h), if_pos ⟨h33, hodd⟩]
  · intro h0 h1 h2 h3
    unfold processReport
    rw [if_neg h0, if_neg h1, if_neg h2, if_neg h3]

/-- C4 (witness): an unrecognized report of length 3 with tag 0x99
produces zero events and no state change. -/
theorem C4_witness :
    processReport [0x99, 1, 2] initState = (initState, []) :=
  (C4_classifier [0x99, 1, 2] initState).2.2.2.2
    (by decide) (by decide) (by decide) (by decide)

/-- C9: the two decoders touch disjoint parts of the device state: for
every input, the buttons decoder leaves `padValues` and `padDown`
unchanged, and the pad decoder leaves `buttonDown`, the polarity flag
and the encoder calibration state unchanged. -/
theorem C9_decoder_frames (input : List Nat) (s : MikroState) :
    ((processButtonsReport input s).1.padValues = s.padValues ∧
      (processButtonsReport input s).1.padDown = s.padDown) ∧
    ((processPadsLikeMk1Mk2 input s).1.buttonDown = s.buttonDown ∧
      (processPadsLikeMk1Mk2 input s).1.buttonsActiveLow = s.buttonsActiveLow ∧
      (processPadsLikeMk1Mk2 input s).1.encoderInitialized = s.encoderInitialized ∧
      (processPadsLikeMk1Mk2 input s).1.encoderValue = s.encoderValue) :=
  ⟨processButtons_frame input s, processPairs_frame (input.drop 1) s⟩

/-- C10: the pad decoder never indexes out of bounds: the raw pad
index, a high nibble, is always below `kNumPads`, so the defensive
skip branch is unreachable, and every entry of the 16-entry
`kRawPadToLogical` table is itself below `kNumPads`, keeping every
`padValues` and `padDown` access in bounds. -/
theorem C10_pad_decoder_bounds :
    (∀ h : Nat, (h &&& 0xF0) >>> 4 < kNumPads) ∧
    (∀ r : Nat, kRawPadToLogical.getD r 0 < kNumPads) ∧
    kRawPadToLogical.length = kNumPads ∧
    kRawPadToLogical.all (fun e => decide (e < kNumPads)) = true :=
  ⟨rawPad_lt_16, logicalPad_lt_16, rfl, by decide⟩

theorem processPairs_nil (s : MikroState) : processPairs [] s = (s, []) := rfl

theorem processPairs_one (b : Nat) (s : MikroState) : processPairs [b] s = (s, []) := rfl

/-- C6: for a complete little-endian pair (L, H) consumed from offset 1,
the raw pad index is the high nibble of H, the magnitude
`((H & 0x0F) << 8) | L` is at most 4095 and is stored into `padValues`
at the permuted logical index for every pair; a down event carries the
unclamped value magnitude/1024, so magnitude 1024 emits 1.0 and
magnitude 4095 emits 4095/1024, within 1/1000 of 3.999; a dangling
final byte is ignored. -/
theorem C6_pad_pair_decode (l h : Nat) (s : MikroState) (hl : l < 256) (hh : h < 256) :
    ((h &&& 0x0F) <<< 8 ||| l) ≤ 4095 ∧
    (processPadsLikeMk1Mk2 [0x20, l, h] s).1.padValues
      = s.padValues.set (kRawPadToLogical.getD ((h &&& 0xF0) >>> 4) 0)
          ((h &&& 0x0F) <<< 8 ||| l) ∧
    (kPadThreshold < (h &&& 0x0F) <<< 8 ||| l →
      (processPadsLikeMk1Mk2 [0x20, l, h] s).2 =
        [.keyChanged (kRawPadToLogical.getD ((h &&& 0xF0) >>> 4) 0)
          ((((h &&& 0x0F) <<< 8 ||| l : Nat) : ℚ) / 1024) false]) ∧
    (∀ b : Nat, processPadsLikeMk1Mk2 [0x20, l, h, b] s
        = processPadsLikeMk1Mk2 [0x20, l, h] s) ∧
    processPadsLikeMk1Mk2 [0x20, l] s = (s, []) ∧
    (processPadsLikeMk1Mk2 [0x20, 0x00, 0x04] initState).2
      = [.keyChanged 12 (((1024 : Nat) : ℚ) / 1024) false] ∧
    ((1024 : ℚ) / 1024 = 1 ∧
      (processPadsLikeMk1Mk2 [0x20, 0xFF, 0x0F] initState).2
        = [.keyChanged 12 (((4095 : Nat) : ℚ) / 1024) false] ∧
      |(4095 : ℚ) / 1024 - 3999 / 1000| < 1 / 1000) := by
  refine ⟨?_, ?_, ?_, ?_, rfl, rfl, by norm_num, rfl, ?_⟩
  · have hx : h &&& 0x0F ≤ 0x0F := Nat.and_le_right
    have hsl : (h &&& 0x0F) <<< 8 = (h &&& 0x0F) * 2 ^ 8 := Nat.shiftLeft_eq _ _
    have h1 : (h &&& 0x0F) <<< 8 < 2 ^ 12 := by
      rw [hsl]
      norm_num
      omega
    have h2 : l < 2 ^ 12 := by norm_num; omega
    have h3 := Nat.or_lt_two_pow h1 h2
    norm_num at h3
    omega
  · show (processPairs [l, h] s).1.padValues = _
    rw [processPairs_pair l h [] s hl hh]
    dsimp only
    split
    · rfl
    · split
      · rfl
      · rfl
  · intro hv
    show (processPairs [l, h] s).2 = _
    rw [processPairs_pair l h [] s hl hh]
    dsimp only
    rw [if_pos hv]
    rfl
  · intro b
    show processPairs [l, h, b] s = processPairs [l, h] s
    rw [processPairs_pair l h [b] s hl hh, processPairs_pair l h [] s hl hh]
    simp only [processPairs_one, processPairs_nil]
  · rw [abs_sub_lt_iff]
    constructor <;> norm_num

/-- C6 (witness): the pair L = 0x00, H = 0x04 decodes to raw pad 0,
logical pad 12, magnitude 1024, and emits the value 1024/1024 = 1. -/
theorem C6_witness :
    (0 : Nat) < 256 ∧ (4 : Nat) < 256 ∧
    kPadThreshold < (4 &&& 0x0F) <<< 8 ||| 0 ∧
    (processPadsLikeMk1Mk2 [0x20, 0, 4] initState).2 =
      [.keyChanged (kRawPadToLogical.getD ((4 &&& 0xF0) >>> 4) 0)
        ((((4 &&& 0x0F) <<< 8 ||| 0 : Nat) : ℚ) / 1024) false] :=
  ⟨by decide, by decide, by decide,
    (C6_pad_pair_decode 0 4 initState (by decide) (by decide)).2.2.1 (by decide)⟩

/-- C7: on the first valid buttons report (polarity still unresolved),
the stored polarity is active-low (1) when all payload bytes except the
final encoder byte are 0xFF, active-high (0) when they are all 0x00,
and otherwise active-low exactly when the total set-bit count of those
bytes exceeds half of their 32 bits. -/
theorem C7_polarity_heuristic (t b1 b2 b3 b4 b5 : Nat) (s : MikroState)
    (hpol : s.buttonsActiveLow < 0) :
    (processButtonsReport [t, b1, b2, b3, b4, b5] s).1.buttonsActiveLow =
      (if [b1 % 256, b2 % 256, b3 % 256, b4 % 256].all (fun b => b == 0xFF) then 1
       else if [b1 % 256, b2 % 256, b3 % 256, b4 % 256].all (fun b => b == 0x00) then 0
       else if 16 < popcount8 (b1 % 256) + (popcount8 (b2 % 256)
           + (popcount8 (b3 % 256) + popcount8 (b4 % 256))) then 1 else 0) := by
  unfold processButtonsReport
  rw [if_neg (by simp)]
  dsimp only
  rw [if_pos hpol]
  rw [(encoderStep_frame _ _ _).2.2.2]
  show calibPolarity [t, b1, b2, b3, b4, b5] = _
  unfold calibPolarity
  rw [show (([t, b1, b2, b3, b4, b5] : List Nat).length - 1 - 1) * 8 / 2 = 16 from by norm_num]
  rfl

/-- C7 (witness): the report 01 FF FF FF FF 05 from a fresh state
resolves the polarity to active-low (1). -/
theorem C7_witness :
    initState.buttonsActiveLow < 0 ∧
    (processButtonsReport [0x01, 0xFF, 0xFF, 0xFF, 0xFF, 0x05] initState).1.buttonsActiveLow =
      (if [0xFF % 256, 0xFF % 256, 0xFF % 256, 0xFF % 256].all (fun b => b == 0xFF) then 1
       else if [0xFF % 256, 0xFF % 256, 0xFF % 256, 0xFF % 256].all (fun b => b == 0x00) then 0
       else if 16 < popcount8 (0xFF % 256) + (popcount8 (0xFF % 256)
           + (popcount8 (0xFF % 256) + popcount8 (0xFF % 256))) then 1 else 0) :=
  ⟨by decide, C7_polarity_heuristic 0x01 0xFF 0xFF 0xFF 0xFF 0x05 initState (by decide)⟩

/-- C8: once the polarity is resolved (non-negative), processing any
further report of any shape leaves it unchanged; only the explicit
re-initialization returns it to unknown (-1). -/
theorem C8_polarity_stable (input : List Nat) (s : MikroState)
    (hpol : 0 ≤ s.buttonsActiveLow) :
    (processReport input s).1.buttonsActiveLow = s.buttonsActiveLow ∧
    (init s).buttonsActiveLow = -1 := by
  refine ⟨?_, rfl⟩
  unfold processReport
  split
  · rfl
  split
  · exact processButtons_activeLow _ _ (by omega)
  split
  · exact (processPairs_frame _ _).2.1
  split
  · exact (processPairs_frame _ _).2.1
  · rfl

/-- C8 (witness): a pad report processed on a state with resolved
polarity 1 leaves the polarity at 1, and `init` resets it to -1. -/
theorem C8_witness :
    (0 : Int) ≤ ({ initState with buttonsActiveLow := 1 } : MikroState).buttonsActiveLow ∧
    (processReport [0x20, 250, 0]
        { initState with buttonsActiveLow := 1 }).1.buttonsActiveLow =
      ({ initState with buttonsActiveLow := 1 } : MikroState).buttonsActiveLow ∧
    (init { initState with buttonsActiveLow := 1 }).buttonsActiveLow = -1 :=
  ⟨by decide, C8_polarity_stable [0x20, 250, 0] { initState with buttonsActiveLow := 1 } (by decide)⟩

theorem encoderStep_init (s : MikroState) (c : Nat) (sh : Bool)
    (h : s.encoderInitialized = false) :
    encoderStep s c sh = ({ s with encoderInitialized := true, encoderValue := c }, []) := by
  unfold encoderStep
  rw [if_pos h]

theorem encoderStep_changed (s : MikroState) (c : Nat) (sh : Bool)
    (h : s.encoderInitialized = true) (hne : c ≠ s.encoderValue) :
    encoderStep s c sh =
      ({ s with encoderValue := c },
        [.encoderChanged 0 ((decide (s.encoderValue < c)
              || (s.encoderValue == 0x0F && c == 0x00))
            && !(s.encoderValue == 0x0 && c == 0x0F)) sh]) := by
  unfold encoderStep
  rw [if_neg (by simp [h]), if_pos hne]

theorem increased_true_iff (p c : Nat) :
    ((decide (p < c) || (p == 0x0F && c == 0x00)) && !(p == 0x0 && c == 0x0F)) = true
      ↔ ((p < c ∨ (p = 15 ∧ c = 0)) ∧ ¬(p = 0 ∧ c = 15)) := by
  simp
  tauto

/-- C3: on the first valid buttons report the low nibble of the last
payload byte is stored as the encoder baseline and no encoder event is
emitted; on a later report whose position c differs from the stored
position p, exactly one encoder event is emitted, its direction flag is
true exactly when (p < c or (p = 15 and c = 0)) and not (p = 0 and
c = 15), and the stored position becomes c. -/
theorem C3_encoder_direction (t b1 b2 b3 b4 b5 : Nat) (s : MikroState) :
    (s.encoderInitialized = false →
      (processButtonsReport [t, b1, b2, b3, b4, b5] s).1.encoderInitialized = true ∧
      (processButtonsReport [t, b1, b2, b3, b4, b5] s).1.encoderValue = b5 % 256 &&& 0x0F ∧
      (processButtonsReport [t, b1, b2, b3, b4, b5] s).2.filter Event.isEncoder = []) ∧
    (s.encoderInitialized = true → b5 % 256 &&& 0x0F ≠ s.encoderValue →
      (∃ sh inc : Bool,
        (processButtonsReport [t, b1, b2, b3, b4, b5] s).2.filter Event.isEncoder
          = [.encoderChanged 0 inc sh] ∧
        (inc = true ↔ ((s.encoderValue < b5 % 256 &&& 0x0F
              ∨ (s.encoderValue = 15 ∧ b5 % 256 &&& 0x0F = 0))
            ∧ ¬(s.encoderValue = 0 ∧ b5 % 256 &&& 0x0F = 15)))) ∧
      (processButtonsReport [t, b1, b2, b3, b4, b5] s).1.encoderValue = b5 % 256 &&& 0x0F) := by
  have hguard : ¬ (([t, b1, b2, b3, b4, b5] : List Nat).length - 1 < 5) := by simp
  constructor
  · intro h0
    unfold processButtonsReport
    rw [if_neg hguard]
    dsimp only
    by_cases hp : s.buttonsActiveLow < 0
    · rw [if_pos hp, encoderStep_init
        { s with buttonsActiveLow := calibPolarity [t, b1, b2, b3, b4, b5] } _ _ h0]
      refine ⟨rfl, rfl, ?_⟩
      simp [buttonEdgeEvents_filter_isEncoder]
    · rw [if_neg hp, encoderStep_init s _ _ h0]
      refine ⟨rfl, rfl, ?_⟩
      simp [buttonEdgeEvents_filter_isEncoder]
  · intro h1 hne
    unfold processButtonsReport
    rw [if_neg hguard]
    dsimp only
    rw [show byteAt [t, b1, b2, b3, b4, b5]
        (1 + (([t, b1, b2, b3, b4, b5] : List Nat).length - 1 - 1)) &&& 0x0F
        = b5 % 256 &&& 0x0F from rfl]
    by_cases hp : s.buttonsActiveLow < 0
    · rw [if_pos hp, encoderStep_changed
        { s with buttonsActiveLow := calibPolarity [t, b1, b2, b3, b4, b5] } _ _ h1 hne]
      refine ⟨⟨(computeNewDown [t, b1, b2, b3, b4, b5]
          (calibPolarity [t, b1, b2, b3, b4, b5])).getD 0 false, _, ?_,
          increased_true_iff s.encoderValue (b5 % 256 &&& 0x0F)⟩, rfl⟩
      simp [buttonEdgeEvents_filter_isEncoder, Event.isEncoder]
    · rw [if_neg hp, encoderStep_changed s _ _ h1 hne]
      refine ⟨⟨(computeNewDown [t, b1, b2, b3, b4, b5] s.buttonsActiveLow).getD 0 false, _, ?_,
          increased_true_iff s.encoderValue (b5 % 256 &&& 0x0F)⟩, rfl⟩
      simp [buttonEdgeEvents_filter_isEncoder, Event.isEncoder]

/-- C3 (witness): from stored position 15, a report with encoder nibble
0 emits exactly one encoder event whose direction satisfies the wrap
rule: 15 to 0 is increased. -/
theorem C3_witness :
    ({ initState with encoderInitialized := true, encoderValue := 15 }
        : MikroState).encoderInitialized = true ∧
    ((0 : Nat) ≠ 15) ∧
    ((∃ sh inc : Bool,
        (processButtonsReport [1, 0, 0, 0, 0, 0]
            { initState with encoderInitialized := true, encoderValue := 15 }).2.filter
            Event.isEncoder
          = [.encoderChanged 0 inc sh] ∧
        (inc = true ↔ (((15 : Nat) < 0 ∨ ((15 : Nat) = 15 ∧ (0 : Nat) = 0))
          ∧ ¬((15 : Nat) = 0 ∧ (0 : Nat) = 15)))) ∧
      (processButtonsReport [1, 0, 0, 0, 0, 0]
          { initState with encoderInitialized := true, encoderValue := 15 }).1.encoderValue = 0) :=
  ⟨rfl, by decide,
    (C3_encoder_direction 1 0 0 0 0 0
      { initState with encoderInitialized := true, encoderValue := 15 }).2 rfl (by decide)⟩

/-- C5: on a buttons report processed with the polarity already fixed,
the stored button-down set is replaced by the new frame in full, and
the button-changed events are exactly, in ascending bit-position order,
one event per changed bit position whose bank/bit lookup is not the
Unknown sentinel, with pressed equal to the new state and the shift
flag taken from bit position 0 of the new frame. -/
theorem C5_button_edges (input : List Nat) (s : MikroState)
    (hlen : input.length = 6) (hpol : 0 ≤ s.buttonsActiveLow) :
    (processButtonsReport input s).1.buttonDown
      = computeNewDown input s.buttonsActiveLow ∧
    (processButtonsReport input s).2.filter Event.isButton =
      (List.range 32).filterMap (fun idx =>
        if (computeNewDown input s.buttonsActiveLow).getD idx false
            = s.buttonDown.getD idx false then none
        else if buttonLookup (4 - idx / 8) (idx % 8) = Button.Unknown then none
        else some (.buttonChanged (buttonLookup (4 - idx / 8) (idx % 8))
          ((computeNewDown input s.buttonsActiveLow).getD idx false)
          ((computeNewDown input s.buttonsActiveLow).getD 0 false))) := by
  have hguard : ¬ (input.length - 1 < 5) := by omega
  have hp : ¬ s.buttonsActiveLow < 0 := by omega
  unfold processButtonsReport
  rw [if_neg hguard]
  dsimp only
  rw [if_neg hp]
  refine ⟨rfl, ?_⟩
  rw [List.filter_append, encoderStep_filter_isButton, List.nil_append,
    buttonEdgeEvents_filter_isButton, (encoderStep_frame _ _ _).2.2.1]
  unfold buttonEdgeEvents
  refine congrArg (fun fn => List.filterMap fn (List.range 32)) (funext fun idx => ?_)
  dsimp only
  by_cases h1 : (computeNewDown input s.buttonsActiveLow).getD idx false
      = s.buttonDown.getD idx false
  · rw [if_pos h1, if_pos h1]
  · rw [if_neg h1, if_neg h1]
    by_cases h2 : buttonLookup (4 - idx / 8) (idx % 8) = Button.Unknown
    · rw [if_neg (not_not_intro h2), if_pos h2]
    · rw [if_pos h2, if_neg h2]

/-- C5 (witness): with polarity fixed active-high, the report
01 01 00 00 00 00 from a fresh frame toggles bit position 0 (bank 4,
bit 0: Shift) and the theorem's description applies to it. -/
theorem C5_witness :
    ([0x01, 0x01, 0, 0, 0, 0] : List Nat).length = 6 ∧
    (0 : Int) ≤ ({ initState with buttonsActiveLow := 0 } : MikroState).buttonsActiveLow ∧
    ((processButtonsReport [0x01, 0x01, 0, 0, 0, 0]
        { initState with buttonsActiveLow := 0 }).1.buttonDown
      = computeNewDown [0x01, 0x01, 0, 0, 0, 0]
          ({ initState with buttonsActiveLow := 0 } : MikroState).buttonsActiveLow ∧
    (processButtonsReport [0x01, 0x01, 0, 0, 0, 0]
        { initState with buttonsActiveLow := 0 }).2.filter Event.isButton =
      (List.range 32).filterMap (fun idx =>
        if (computeNewDown [0x01, 0x01, 0, 0, 0, 0]
              ({ initState with buttonsActiveLow := 0 } : MikroState).buttonsActiveLow).getD idx false
            = ({ initState with buttonsActiveLow := 0 }
                : MikroState).buttonDown.getD idx false then none
        else if buttonLookup (4 - idx / 8) (idx % 8) = Button.Unknown then none
        else some (.buttonChanged (buttonLookup (4 - idx / 8) (idx % 8))
          ((computeNewDown [0x01, 0x01, 0, 0, 0, 0]
            ({ initState with buttonsActiveLow := 0 } : MikroState).buttonsActiveLow).getD idx false)
          ((computeNewDown [0x01, 0x01, 0, 0, 0, 0]
            ({ initState with buttonsActiveLow := 0 } : MikroState).buttonsActiveLow).getD 0 false)))) :=
  ⟨rfl, by decide,
    C5_button_edges [0x01, 0x01, 0, 0, 0, 0] { initState with buttonsActiveLow := 0 }
      rfl (by decide)⟩
